import Mathlib

/-!
Shallow embedding of `thred/models/hierarchical_base.py`
(`BaseHierarchicalEncoderDecoder.train`, `_sample_decode`, `test`).

Python integers are modelled as `Int`; perplexities (Python floats used
only through exact order comparisons here) are modelled as `Rat`.  The
externally visible side effects of `train` (persisting the RunConfig,
initializing the data iterator, saving checkpoints, running sample
decodes, closing the three sessions) are recorded as an explicit trace
of abstract actions.  Each iteration of the `while` loop consumes one
oracle input describing what the TensorFlow runtime returned: either the
`OutOfRangeError` end-of-epoch signal, or a successful optimization step
together with the overflow flag a stats report would compute and the dev
perplexity an internal eval would compute.
-/

/-- The three TensorFlow sessions created by `train` (lines 59-64). -/
inductive SessionKind
  | train
  | eval
  | infer
  deriving DecidableEq, Repr

/-- The persisted run configuration `self.config`: the fields of the
mutable config object that `train` and `test` read or write. -/
structure RunConfig where
  epoch : Int
  epoch_step : Int
  num_train_epochs : Int
  batch_size : Int
  patience : Int
  best_dev_ppl : Rat
  degrade_threshold : Rat
  steps_per_stats : Int
  steps_per_eval : Int
  eval_best_model : Bool
  n_responses : Int
  beam_width : Int
  deriving DecidableEq, Repr

/-- The local state of the training loop: the config object plus the
local variables `patience`, `global_step`, `last_stats_step`,
`last_eval_step` (lines 67-76). -/
structure TrainState where
  config : RunConfig
  patience : Int
  global_step : Int
  last_stats_step : Int
  last_eval_step : Int
  deriving DecidableEq, Repr

/-- Externally visible side effects of `train`, recorded as a trace. -/
inductive Act
  | createSession (k : SessionKind)
  | saveConfig (c : RunConfig)
  | initIterator (skip : Int)
  | optimizeStep
  | sampleDecode
  | saveCheckpoint (gstep : Int)
  | runEval
  | runInferBestModel
  | closeSummaryWriter
  | closeSession (k : SessionKind)
  deriving DecidableEq, Repr

/-- Oracle input for one iteration of the `while` loop: either the
iterator raised `OutOfRangeError`, or `loaded_train_model.train`
succeeded; in the latter case `isOverflow` is what `check_stats` would
report and `devPpl` what `run_internal_eval` would return, should the
respective cadence guards fire this iteration. -/
inductive IterInput
  | outOfRange
  | stepOk (isOverflow : Bool) (devPpl : Rat)
  deriving DecidableEq, Repr

/-- Result of one loop iteration: successor state, emitted actions, and
whether the iteration executed `break` (overflow path, line 136). -/
structure IterResult where
  state : TrainState
  trace : List Act
  broke : Bool
  deriving DecidableEq, Repr

/-- The dev-perplexity comparison of the eval block (lines 155-173):
given the current `best_dev_ppl`, `degrade_threshold`, the fresh
`dev_ppl`, the live `patience` countdown and the configured maximum
`config.patience`, return the new `(best_dev_ppl, patience)` pair. -/
def evalUpdate (best_dev_ppl degrade_threshold dev_ppl : Rat)
    (patience maxPatience : Int) : Rat × Int :=
  if dev_ppl < best_dev_ppl then (dev_ppl, maxPatience)
  else if dev_ppl > degrade_threshold * best_dev_ppl then (best_dev_ppl, patience - 1)
  else (best_dev_ppl, patience)

/-- The eval/checkpoint block guarded by `steps_per_eval` (lines
141-176): save a checkpoint tagged with `global_step`, run a sample
decode, run the internal eval, update `best_dev_ppl`/`patience`, and
persist the config. -/
def evalPhase (s : TrainState) (devPpl : Rat) : IterResult :=
  if s.config.steps_per_eval ≤ s.global_step - s.last_eval_step then
    { state :=
        { s with
          last_eval_step := s.global_step
          config := { s.config with
            best_dev_ppl :=
              (evalUpdate s.config.best_dev_ppl s.config.degrade_threshold
                devPpl s.patience s.config.patience).1 }
          patience :=
            (evalUpdate s.config.best_dev_ppl s.config.degrade_threshold
              devPpl s.patience s.config.patience).2 }
      trace :=
        [Act.saveCheckpoint s.global_step, Act.sampleDecode, Act.runEval,
         Act.saveConfig
           { s.config with
             best_dev_ppl :=
               (evalUpdate s.config.best_dev_ppl s.config.degrade_threshold
                 devPpl s.patience s.config.patience).1 }]
      broke := false }
  else { state := s, trace := [], broke := false }

/-- The post-step part of a successful iteration: the stats block
guarded by `steps_per_stats` (lines 130-139, `break` on overflow)
followed by the eval block. -/
def stepPhase (s : TrainState) (isOverflow : Bool) (devPpl : Rat) : IterResult :=
  if s.config.steps_per_stats ≤ s.global_step - s.last_stats_step then
    if isOverflow then
      { state := { s with last_stats_step := s.global_step }
        trace := [Act.optimizeStep]
        broke := true }
    else
      { state := (evalPhase { s with last_stats_step := s.global_step } devPpl).state
        trace := Act.optimizeStep :: (evalPhase { s with last_stats_step := s.global_step } devPpl).trace
        broke := false }
  else
    { state := (evalPhase s devPpl).state
      trace := Act.optimizeStep :: (evalPhase s devPpl).trace
      broke := false }

/-- One iteration of the `while` loop body (lines 101-176).  On
`OutOfRangeError`: sample decode, `epoch += 1`, `epoch_step = 0`,
persist config, re-initialize the iterator with skip count 0, and
`continue` (lines 106-124).  On a successful step: `epoch_step += 1`,
`global_step` advances by the optimizer update, then the stats block
(break on overflow) and the eval block run when their cadence guards
fire. -/
def trainIteration (s : TrainState) (inp : IterInput) : IterResult :=
  match inp with
  | IterInput.outOfRange =>
    { state := { s with config := { s.config with epoch := s.config.epoch + 1, epoch_step := 0 } }
      trace :=
        [Act.sampleDecode,
         Act.saveConfig { s.config with epoch := s.config.epoch + 1, epoch_step := 0 },
         Act.initIterator 0]
      broke := false }
  | IterInput.stepOk isOverflow devPpl =>
    stepPhase
      { s with
        config := { s.config with epoch_step := s.config.epoch_step + 1 }
        global_step := s.global_step + 1 }
      isOverflow devPpl

/-- The `while` loop of `train` (line 99): it runs as long as
`epoch < num_train_epochs and patience > 0`, consuming one oracle input
per iteration, and stops early when an iteration breaks (overflow).
Returns the final state, the concatenated trace, and the overflow flag. -/
def trainLoop : List IterInput → TrainState → TrainState × List Act × Bool
  | [], s => (s, [], false)
  | inp :: rest, s =>
    if s.config.epoch < s.config.num_train_epochs ∧ 0 < s.patience then
      if (trainIteration s inp).broke then
        ((trainIteration s inp).state, (trainIteration s inp).trace, true)
      else
        ((trainLoop rest (trainIteration s inp).state).1,
         (trainIteration s inp).trace ++ (trainLoop rest (trainIteration s inp).state).2.1,
         (trainLoop rest (trainIteration s inp).state).2.2)
    else (s, [], false)

/-- The part of `train` before the loop (lines 20-96): persist the
config, create the three sessions, load the model (which yields the
restored `global_step` `gs`), set `patience` from `config.patience`,
and initialize the training iterator with
`skip_count = batch_size * epoch_step` (lines 82-93). -/
def trainInit (c : RunConfig) (gs : Int) : TrainState × List Act :=
  ({ config := c, patience := c.patience, global_step := gs,
     last_stats_step := gs, last_eval_step := gs },
   [Act.saveConfig c,
    Act.createSession SessionKind.train,
    Act.createSession SessionKind.eval,
    Act.createSession SessionKind.infer,
    Act.initIterator (c.batch_size * c.epoch_step)])

/-- The part of `train` after the loop (lines 178-211): save a final
checkpoint tagged with the last `global_step`, optionally evaluate the
best model, close the summary writer and the three sessions. -/
def trainFinish (s : TrainState) : List Act :=
  Act.saveCheckpoint s.global_step ::
    ((if s.config.eval_best_model then [Act.runInferBestModel] else []) ++
     [Act.closeSummaryWriter,
      Act.closeSession SessionKind.eval,
      Act.closeSession SessionKind.infer,
      Act.closeSession SessionKind.train])

/-- The whole of `train`: initialization, the loop, and the epilogue. -/
def trainRun (c : RunConfig) (gs : Int) (inputs : List IterInput) :
    TrainState × List Act :=
  ((trainLoop inputs (trainInit c gs).1).1,
   (trainInit c gs).2 ++ (trainLoop inputs (trainInit c gs).1).2.1 ++
     trainFinish (trainLoop inputs (trainInit c gs).1).1)

/-- Stages of `test` that run after its precondition assertions. -/
inductive TestPhase
  | modelCreation
  | decoding
  | perplexityEval
  deriving DecidableEq, Repr

/-- The assertion failures `test` can raise (lines 272-277). -/
inductive PreViolation
  | nResponsesTooSmall
  | nResponsesExceedsBeamWidth
  | nResponsesNotOneWithoutBeam
  deriving DecidableEq, Repr

/-- `test` (lines 269-311): the assertion block
(`assert n_responses >= 1`, then `n_responses <= beam_width` when
`beam_width > 0`, else `n_responses == 1`) runs before
`_pre_model_creation` and all decoding; a failed assertion aborts with
no partial execution. -/
def testRun (c : RunConfig) : Except PreViolation (List TestPhase) :=
  if 1 ≤ c.n_responses then
    if 0 < c.beam_width then
      if c.n_responses ≤ c.beam_width then
        Except.ok [TestPhase.modelCreation, TestPhase.decoding, TestPhase.perplexityEval]
      else Except.error PreViolation.nResponsesExceedsBeamWidth
    else
      if c.n_responses = 1 then
        Except.ok [TestPhase.modelCreation, TestPhase.decoding, TestPhase.perplexityEval]
      else Except.error PreViolation.nResponsesNotOneWithoutBeam
  else Except.error PreViolation.nResponsesTooSmall

/-- Index selection in `_sample_decode` (line 232):
`np.random.randint(low=0, high=len(eval_data) - 1, size=1)`.  numpy's
`randint` has an exclusive high bound and raises `ValueError` when
`high <= low` (modelled as `none`); `r` abstracts the PRNG draw, which
`randint` reduces modulo the size of the half-open range. -/
def sampleDecodeIndex (datasetLen : Nat) (r : Nat) : Option Nat :=
  if datasetLen - 1 = 0 then none
  else some (r % (datasetLen - 1))

/-! ## Sample states used by the witness theorems -/

/-- A concrete run configuration used to instantiate theorems with
hypotheses. -/
def cfg1 : RunConfig :=
  { epoch := 0, epoch_step := 0, num_train_epochs := 10, batch_size := 32,
    patience := 3, best_dev_ppl := 100, degrade_threshold := 2,
    steps_per_stats := 1, steps_per_eval := 5, eval_best_model := false,
    n_responses := 1, beam_width := 0 }

/-- A concrete loop state built from `cfg1`. -/
def st1 : TrainState :=
  { config := cfg1, patience := 3, global_step := 0, last_stats_step := 0,
    last_eval_step := 0 }

/-- `cfg1` with an exhausted patience countdown in the loop state. -/
def stPat0 : TrainState :=
  { st1 with patience := 0 }

/-- `cfg1` with the epoch counter already at `num_train_epochs`. -/
def stEpochDone : TrainState :=
  { st1 with config := { cfg1 with epoch := 10 } }

/-- C1: in every evaluation cycle, if `dev_ppl < best_dev_ppl` then
`best_dev_ppl` is set to `dev_ppl` and patience resets to the configured
maximum; else if `dev_ppl > degrade_threshold * best_dev_ppl` then
patience is decremented by exactly 1 and `best_dev_ppl` is unchanged;
and for `best_dev_ppl <= dev_ppl <= degrade_threshold * best_dev_ppl`
both are left unchanged (dead zone). -/
theorem train_eval_patience_update (best thr dev : Rat) (pat maxPat : Int) :
    (dev < best → evalUpdate best thr dev pat maxPat = (dev, maxPat)) ∧
    (¬ dev < best → dev > thr * best →
      evalUpdate best thr dev pat maxPat = (best, pat - 1)) ∧
    (best ≤ dev → dev ≤ thr * best →
      evalUpdate best thr dev pat maxPat = (best, pat)) := by
  refine ⟨?_, ?_, ?_⟩
  · intro h
    simp only [evalUpdate, if_pos h]
  · intro h1 h2
    simp only [evalUpdate, if_neg h1, if_pos h2]
  · intro h1 h2
    have hn1 : ¬ dev < best := not_lt.mpr h1
    have hn2 : ¬ dev > thr * best := not_lt.mpr h2
    simp only [evalUpdate, if_neg hn1, if_neg hn2]

/-- Witness for C1: the three branches at concrete perplexities, with
`best_dev_ppl = 100` and `degrade_threshold = 11/10`. -/
theorem train_eval_patience_update_witness :
    evalUpdate 100 (11/10) 50 3 7 = (50, 7) ∧
    evalUpdate 100 (11/10) 120 3 7 = (100, 2) ∧
    evalUpdate 100 (11/10) 105 3 7 = (100, 3) := by
  refine ⟨?_, ?_, ?_⟩
  · exact (train_eval_patience_update 100 (11/10) 50 3 7).1 (by norm_num)
  · exact (train_eval_patience_update 100 (11/10) 120 3 7).2.1 (by norm_num) (by norm_num)
  · exact (train_eval_patience_update 100 (11/10) 105 3 7).2.2 (by norm_num) (by norm_num)

/-- C2: on the data-exhausted signal, `epoch` is incremented by exactly
1, `epoch_step` is reset to 0, `global_step` is unchanged, the updated
RunConfig is persisted, the training iterator is re-initialized with
skip offset 0 after a sample decode, and the loop continues (no break). -/
theorem train_epoch_rollover (s : TrainState) :
    (trainIteration s IterInput.outOfRange).state.config.epoch = s.config.epoch + 1 ∧
    (trainIteration s IterInput.outOfRange).state.config.epoch_step = 0 ∧
    (trainIteration s IterInput.outOfRange).state.global_step = s.global_step ∧
    (trainIteration s IterInput.outOfRange).broke = false ∧
    (trainIteration s IterInput.outOfRange).trace =
      [Act.sampleDecode,
       Act.saveConfig { s.config with epoch := s.config.epoch + 1, epoch_step := 0 },
       Act.initIterator 0] :=
  ⟨rfl, rfl, rfl, rfl, rfl⟩

/-- C5: `_sample_decode` draws its index with
`np.random.randint(low=0, high=len(eval_data) - 1)`, whose high bound is
exclusive: on a single-element (or empty) dataset the call raises
`ValueError` (modelled as `none`) instead of selecting the element, and
on a 5-element dataset the selected index is `r % 4 < 4`, so the last
index 4 is never a possible selection.  This contradicts uniform
selection over the whole dataset. -/
theorem sample_decode_randint_bug (r : Nat) :
    sampleDecodeIndex 1 r = none ∧
    sampleDecodeIndex 0 r = none ∧
    sampleDecodeIndex 5 r = some (r % 4) ∧
    r % 4 < 4 :=
  ⟨rfl, rfl, rfl, Nat.mod_lt _ (by decide)⟩

/-- Configuration accepted by `test`: 3 responses with beam width 5. -/
def cfgBeam : RunConfig :=
  { cfg1 with n_responses := 3, beam_width := 5 }

/-- Configuration rejected by `test`: 3 responses with beam width 0. -/
def cfgNoBeam : RunConfig :=
  { cfg1 with n_responses := 3, beam_width := 0 }

/-- C4: `test` checks its preconditions eagerly, before model creation
and decoding: it accepts iff `n_responses >= 1` and (if `beam_width > 0`
then `n_responses <= beam_width` else `n_responses == 1`); in
particular `n_responses=3, beam_width=5` is accepted and
`n_responses=3, beam_width=0` is rejected with a precondition violation
and no partial execution. -/
theorem test_preconditions_eager (c : RunConfig) :
    ((testRun c).isOk = true ↔
      (1 ≤ c.n_responses ∧ (0 < c.beam_width → c.n_responses ≤ c.beam_width) ∧
        (c.beam_width ≤ 0 → c.n_responses = 1))) ∧
    testRun cfgBeam =
      Except.ok [TestPhase.modelCreation, TestPhase.decoding, TestPhase.perplexityEval] ∧
    testRun cfgNoBeam = Except.error PreViolation.nResponsesNotOneWithoutBeam := by
  refine ⟨?_, rfl, rfl⟩
  unfold testRun
  split_ifs with h1 h2 h3 h4 <;> simp [Except.isOk, Except.toBool] <;> omega

/-- Witness for C4: the acceptance characterization applied to the
concrete accepted configuration. -/
theorem test_preconditions_eager_witness :
    (testRun cfgBeam).isOk = true :=
  (test_preconditions_eager cfgBeam).1.mpr
    ⟨by norm_num [cfgBeam, cfg1], fun _ => by norm_num [cfgBeam, cfg1],
     fun h => absurd h (by norm_num [cfgBeam, cfg1])⟩

/-- C3: the `while` loop terminates exactly when a terminal condition
first holds.  If `patience <= 0`, no iteration runs regardless of the
epoch; if `epoch >= num_train_epochs`, no iteration runs regardless of
patience; otherwise the loop processes the next oracle input, stopping
at that iteration exactly when the stats report detects overflow. -/
theorem train_loop_terminal_conditions (inputs : List IterInput) (s : TrainState)
    (inp : IterInput) (rest : List IterInput) :
    (s.patience ≤ 0 → trainLoop inputs s = (s, [], false)) ∧
    (s.config.num_train_epochs ≤ s.config.epoch → trainLoop inputs s = (s, [], false)) ∧
    (s.config.epoch < s.config.num_train_epochs → 0 < s.patience →
      (trainIteration s inp).broke = true →
      trainLoop (inp :: rest) s =
        ((trainIteration s inp).state, (trainIteration s inp).trace, true)) ∧
    (s.config.epoch < s.config.num_train_epochs → 0 < s.patience →
      (trainIteration s inp).broke = false →
      trainLoop (inp :: rest) s =
        ((trainLoop rest (trainIteration s inp).state).1,
         (trainIteration s inp).trace ++ (trainLoop rest (trainIteration s inp).state).2.1,
         (trainLoop rest (trainIteration s inp).state).2.2)) := by
  refine ⟨?_, ?_, ?_, ?_⟩
  · intro h
    cases inputs with
    | nil => rfl
    | cons a l =>
        have hc : ¬ (s.config.epoch < s.config.num_train_epochs ∧ 0 < s.patience) := by
          rintro ⟨-, h2⟩
          omega
        simp [trainLoop, hc]
  · intro h
    cases inputs with
    | nil => rfl
    | cons a l =>
        have hc : ¬ (s.config.epoch < s.config.num_train_epochs ∧ 0 < s.patience) := by
          rintro ⟨h1, -⟩
          omega
        simp [trainLoop, hc]
  · intro h1 h2 hb
    simp [trainLoop, h1, h2, hb]
  · intro h1 h2 hb
    simp [trainLoop, h1, h2, hb]

/-- Witness for C3: the four termination behaviors on concrete states
built from `cfg1`. -/
theorem train_loop_terminal_conditions_witness :
    trainLoop [IterInput.outOfRange] stPat0 = (stPat0, [], false) ∧
    trainLoop [IterInput.outOfRange] stEpochDone = (stEpochDone, [], false) ∧
    trainLoop [IterInput.stepOk true 0] st1 =
      ((trainIteration st1 (IterInput.stepOk true 0)).state,
       (trainIteration st1 (IterInput.stepOk true 0)).trace, true) ∧
    trainLoop [IterInput.outOfRange] st1 =
      ((trainLoop [] (trainIteration st1 IterInput.outOfRange).state).1,
       (trainIteration st1 IterInput.outOfRange).trace ++
         (trainLoop [] (trainIteration st1 IterInput.outOfRange).state).2.1,
       (trainLoop [] (trainIteration st1 IterInput.outOfRange).state).2.2) := by
  refine ⟨?_, ?_, ?_, ?_⟩
  · exact (train_loop_terminal_conditions [IterInput.outOfRange] stPat0
      IterInput.outOfRange []).1 (by decide)
  · exact (train_loop_terminal_conditions [IterInput.outOfRange] stEpochDone
      IterInput.outOfRange []).2.1 (by decide)
  · exact (train_loop_terminal_conditions [IterInput.stepOk true 0] st1
      (IterInput.stepOk true 0) []).2.2.1 (by decide) (by decide) (by decide)
  · exact (train_loop_terminal_conditions [IterInput.outOfRange] st1
      IterInput.outOfRange []).2.2.2 (by decide) (by decide) (by decide)

/-- The eval block does not change `global_step`. -/
theorem evalPhase_global_step (s : TrainState) (d : Rat) :
    (evalPhase s d).state.global_step = s.global_step := by
  unfold evalPhase
  split_ifs <;> rfl

/-- The stats/eval part of a successful iteration does not change
`global_step`. -/
theorem stepPhase_global_step (s : TrainState) (ov : Bool) (d : Rat) :
    (stepPhase s ov d).state.global_step = s.global_step := by
  unfold stepPhase
  split_ifs <;> simp [evalPhase_global_step]

/-- A single loop iteration never decreases `global_step`. -/
theorem iter_global_step_le (s : TrainState) (inp : IterInput) :
    s.global_step ≤ (trainIteration s inp).state.global_step := by
  cases inp with
  | outOfRange => exact le_refl _
  | stepOk ov d =>
      show s.global_step ≤
        (stepPhase
          { s with config := { s.config with epoch_step := s.config.epoch_step + 1 },
                   global_step := s.global_step + 1 } ov d).state.global_step
      rw [stepPhase_global_step]
      show s.global_step ≤ s.global_step + 1
      omega

/-- The loop never decreases `global_step`. -/
theorem trainLoop_global_step_le (inputs : List IterInput) (s : TrainState) :
    s.global_step ≤ (trainLoop inputs s).1.global_step := by
  induction inputs generalizing s with
  | nil => exact le_refl _
  | cons inp rest ih =>
      by_cases hc : s.config.epoch < s.config.num_train_epochs ∧ 0 < s.patience
      · by_cases hb : (trainIteration s inp).broke
        · have hres : trainLoop (inp :: rest) s =
              ((trainIteration s inp).state, (trainIteration s inp).trace, true) := by
            simp [trainLoop, hc, hb]
          rw [hres]
          exact iter_global_step_le s inp
        · have hres : trainLoop (inp :: rest) s =
              ((trainLoop rest (trainIteration s inp).state).1,
               (trainIteration s inp).trace ++
                 (trainLoop rest (trainIteration s inp).state).2.1,
               (trainLoop rest (trainIteration s inp).state).2.2) := by
            simp [trainLoop, hc, hb]
          rw [hres]
          exact le_trans (iter_global_step_le s inp) (ih _)
      · simp [trainLoop, hc]

/-- C6: `global_step` never decreases: not across a single operation
(successful step, rollover, stats report, eval cycle), not across the
whole loop, and the final state of `train` carries a `global_step` at
least as large as the restored one. -/
theorem train_global_step_never_decreases (s : TrainState) (inp : IterInput)
    (inputs : List IterInput) (c : RunConfig) (gs : Int) :
    s.global_step ≤ (trainIteration s inp).state.global_step ∧
    s.global_step ≤ (trainLoop inputs s).1.global_step ∧
    gs ≤ (trainRun c gs inputs).1.global_step :=
  ⟨iter_global_step_le s inp, trainLoop_global_step_le inputs s,
   trainLoop_global_step_le inputs (trainInit c gs).1⟩

/-- A stats/eval phase that breaks emitted exactly the one optimization
step of its iteration. -/
theorem stepPhase_broke_trace (s : TrainState) (ov : Bool) (d : Rat)
    (h : (stepPhase s ov d).broke = true) :
    (stepPhase s ov d).trace = [Act.optimizeStep] := by
  unfold stepPhase at h ⊢
  split_ifs at h ⊢
  simp_all

/-- An iteration that breaks emitted exactly one optimization step. -/
theorem iter_broke_trace (s : TrainState) (inp : IterInput)
    (h : (trainIteration s inp).broke = true) :
    (trainIteration s inp).trace = [Act.optimizeStep] := by
  cases inp with
  | outOfRange => exact absurd h (by simp [trainIteration])
  | stepOk ov d => exact stepPhase_broke_trace _ ov d h

/-- C7: when a stats report detects a non-finite training perplexity,
the loop terminates immediately: the remaining oracle inputs are never
consumed (no retry), the iteration that broke contributed exactly its
one optimization step to the trace, and on this and every other
termination path the epilogue of `train` begins with a final checkpoint
tagged with the last `global_step`. -/
theorem train_overflow_terminates_and_final_checkpoint
    (s : TrainState) (inp : IterInput) (rest rest' : List IterInput)
    (c : RunConfig) (gs : Int) (inputs : List IterInput) :
    ((trainIteration s inp).broke = true →
      trainLoop (inp :: rest) s = trainLoop (inp :: rest') s) ∧
    ((trainIteration s inp).broke = true →
      s.config.epoch < s.config.num_train_epochs → 0 < s.patience →
      trainLoop (inp :: rest) s =
        ((trainIteration s inp).state, [Act.optimizeStep], true)) ∧
    (trainRun c gs inputs).2 =
      ((trainInit c gs).2 ++ (trainLoop inputs (trainInit c gs).1).2.1) ++
        trainFinish (trainRun c gs inputs).1 ∧
    (trainFinish (trainRun c gs inputs).1).head? =
      some (Act.saveCheckpoint (trainRun c gs inputs).1.global_step) := by
  refine ⟨?_, ?_, rfl, rfl⟩
  · intro h
    by_cases hc : s.config.epoch < s.config.num_train_epochs ∧ 0 < s.patience
    · simp [trainLoop, hc, h]
    · simp [trainLoop, hc]
  · intro h h1 h2
    have ht := iter_broke_trace s inp h
    simp [trainLoop, h1, h2, h, ht]

/-- Witness for C7: a concrete overflow at `st1` with remaining input,
plus the epilogue facts at `cfg1`. -/
theorem train_overflow_terminates_witness :
    trainLoop [IterInput.stepOk true 0, IterInput.outOfRange] st1 =
      trainLoop [IterInput.stepOk true 0] st1 ∧
    trainLoop [IterInput.stepOk true 0, IterInput.outOfRange] st1 =
      ((trainIteration st1 (IterInput.stepOk true 0)).state, [Act.optimizeStep], true) ∧
    (trainRun cfg1 0 []).2 =
      ((trainInit cfg1 0).2 ++ (trainLoop [] (trainInit cfg1 0).1).2.1) ++
        trainFinish (trainRun cfg1 0 []).1 ∧
    (trainFinish (trainRun cfg1 0 []).1).head? =
      some (Act.saveCheckpoint (trainRun cfg1 0 []).1.global_step) := by
  refine ⟨?_, ?_, ?_, ?_⟩
  · exact (train_overflow_terminates_and_final_checkpoint st1 (IterInput.stepOk true 0)
      [IterInput.outOfRange] [] cfg1 0 []).1 (by decide)
  · exact (train_overflow_terminates_and_final_checkpoint st1 (IterInput.stepOk true 0)
      [IterInput.outOfRange] [] cfg1 0 []).2.1 (by decide) (by decide) (by decide)
  · exact (train_overflow_terminates_and_final_checkpoint st1 (IterInput.stepOk true 0)
      [IterInput.outOfRange] [] cfg1 0 []).2.2.1
  · exact (train_overflow_terminates_and_final_checkpoint st1 (IterInput.stepOk true 0)
      [IterInput.outOfRange] [] cfg1 0 []).2.2.2

/-- The epilogue of `train` ends by closing the summary writer and the
three sessions, in source order. -/
theorem trainFinish_closes (s : TrainState) :
    ∃ q, trainFinish s =
      q ++ [Act.closeSummaryWriter, Act.closeSession SessionKind.eval,
            Act.closeSession SessionKind.infer, Act.closeSession SessionKind.train] := by
  by_cases h : s.config.eval_best_model
  · exact ⟨[Act.saveCheckpoint s.global_step, Act.runInferBestModel],
      by simp [trainFinish, h]⟩
  · exact ⟨[Act.saveCheckpoint s.global_step], by simp [trainFinish, h]⟩

/-- C8: on every exit path of `train` — patience exhaustion, epoch
limit, or overflow break — the trace ends by closing all three session
handles (after closing the summary writer). -/
theorem train_sessions_closed_on_exit (c : RunConfig) (gs : Int)
    (inputs : List IterInput) :
    ∃ pre, (trainRun c gs inputs).2 =
      pre ++ [Act.closeSummaryWriter, Act.closeSession SessionKind.eval,
              Act.closeSession SessionKind.infer, Act.closeSession SessionKind.train] := by
  obtain ⟨q, hq⟩ := trainFinish_closes (trainRun c gs inputs).1
  refine ⟨((trainInit c gs).2 ++ (trainLoop inputs (trainInit c gs).1).2.1) ++ q, ?_⟩
  have hrw : (trainRun c gs inputs).2 =
      ((trainInit c gs).2 ++ (trainLoop inputs (trainInit c gs).1).2.1) ++
        trainFinish (trainRun c gs inputs).1 := rfl
  rw [hrw, hq]
  simp [List.append_assoc]

/-- The eval block never changes the `patience` field of the config,
and any config it persists carries the incoming `config.patience`. -/
theorem evalPhase_patience (s : TrainState) (d : Rat) (c' : RunConfig) :
    (evalPhase s d).state.config.patience = s.config.patience ∧
    (Act.saveConfig c' ∈ (evalPhase s d).trace → c'.patience = s.config.patience) := by
  unfold evalPhase
  split_ifs
  · refine ⟨rfl, ?_⟩
    intro hc'
    simp at hc'
    subst hc'
    rfl
  · refine ⟨rfl, ?_⟩
    intro hc'
    simp at hc'

/-- The stats/eval part of an iteration preserves the config's
`patience` field, in the state and in every persisted config. -/
theorem stepPhase_patience (s : TrainState) (ov : Bool) (d : Rat) (c' : RunConfig) :
    (stepPhase s ov d).state.config.patience = s.config.patience ∧
    (Act.saveConfig c' ∈ (stepPhase s ov d).trace → c'.patience = s.config.patience) := by
  unfold stepPhase
  split_ifs
  · refine ⟨rfl, ?_⟩
    intro hc'
    simp at hc'
  · constructor
    · exact (evalPhase_patience { s with last_stats_step := s.global_step } d c').1
    · intro hc'
      simp only [List.mem_cons] at hc'
      rcases hc' with hc' | hc'
      · exact absurd hc' (by simp)
      · exact (evalPhase_patience { s with last_stats_step := s.global_step } d c').2 hc'
  · constructor
    · exact (evalPhase_patience s d c').1
    · intro hc'
      simp only [List.mem_cons] at hc'
      rcases hc' with hc' | hc'
      · exact absurd hc' (by simp)
      · exact (evalPhase_patience s d c').2 hc'

/-- An iteration preserves the config's `patience` field, in the state
and in every persisted config. -/
theorem iter_patience_config (s : TrainState) (inp : IterInput) (c' : RunConfig) :
    (trainIteration s inp).state.config.patience = s.config.patience ∧
    (Act.saveConfig c' ∈ (trainIteration s inp).trace → c'.patience = s.config.patience) := by
  cases inp with
  | outOfRange =>
      refine ⟨rfl, ?_⟩
      intro hc'
      simp [trainIteration] at hc'
      subst hc'
      rfl
  | stepOk ov d => exact stepPhase_patience _ ov d c'

/-- The loop preserves the config's `patience` field, in the state and
in every persisted config. -/
theorem trainLoop_patience_config (inputs : List IterInput) (s : TrainState)
    (c' : RunConfig) :
    (trainLoop inputs s).1.config.patience = s.config.patience ∧
    (Act.saveConfig c' ∈ (trainLoop inputs s).2.1 → c'.patience = s.config.patience) := by
  induction inputs generalizing s with
  | nil => exact ⟨rfl, by intro h; simp [trainLoop] at h⟩
  | cons inp rest ih =>
      by_cases hc : s.config.epoch < s.config.num_train_epochs ∧ 0 < s.patience
      · by_cases hb : (trainIteration s inp).broke
        · have hres : trainLoop (inp :: rest) s =
              ((trainIteration s inp).state, (trainIteration s inp).trace, true) := by
            simp [trainLoop, hc, hb]
          rw [hres]
          exact iter_patience_config s inp c'
        · have hres : trainLoop (inp :: rest) s =
              ((trainLoop rest (trainIteration s inp).state).1,
               (trainIteration s inp).trace ++
                 (trainLoop rest (trainIteration s inp).state).2.1,
               (trainLoop rest (trainIteration s inp).state).2.2) := by
            simp [trainLoop, hc, hb]
          rw [hres]
          constructor
          · rw [show ((trainLoop rest (trainIteration s inp).state).1,
                (trainIteration s inp).trace ++
                  (trainLoop rest (trainIteration s inp).state).2.1,
                (trainLoop rest (trainIteration s inp).state).2.2).1 =
                (trainLoop rest (trainIteration s inp).state).1 from rfl]
            rw [(ih (trainIteration s inp).state).1]
            exact (iter_patience_config s inp c').1
          · intro hmem
            simp only [List.mem_append] at hmem
            rcases hmem with h | h
            · exact (iter_patience_config s inp c').2 h
            · have h2 := (ih (trainIteration s inp).state).2 h
              rw [h2]
              exact (iter_patience_config s inp c').1
      · have hres : trainLoop (inp :: rest) s = (s, [], false) := by
          simp [trainLoop, hc]
        rw [hres]
        exact ⟨rfl, by intro h; simp at h⟩

/-- The epilogue of `train` persists no config. -/
theorem trainFinish_no_saveConfig (s : TrainState) (c' : RunConfig) :
    Act.saveConfig c' ∈ trainFinish s → False := by
  intro h
  unfold trainFinish at h
  split_ifs at h <;> simp_all

/-- C9: `train` never assigns the config's `patience` field; the live
countdown lives only in a local variable initialized from
`config.patience`, so the final config and every RunConfig persisted
during the run record the configured maximum patience. -/
theorem train_patience_never_persisted (c : RunConfig) (gs : Int)
    (inputs : List IterInput) (c' : RunConfig) :
    (trainInit c gs).1.patience = c.patience ∧
    (trainRun c gs inputs).1.config.patience = c.patience ∧
    (Act.saveConfig c' ∈ (trainRun c gs inputs).2 → c'.patience = c.patience) := by
  refine ⟨rfl, ?_, ?_⟩
  · exact (trainLoop_patience_config inputs (trainInit c gs).1 c').1
  · intro hmem
    have hrw : (trainRun c gs inputs).2 =
        ((trainInit c gs).2 ++ (trainLoop inputs (trainInit c gs).1).2.1) ++
          trainFinish (trainRun c gs inputs).1 := rfl
    rw [hrw] at hmem
    simp only [List.mem_append] at hmem
    rcases hmem with (h | h) | h
    · simp [trainInit] at h
      subst h
      rfl
    · exact (trainLoop_patience_config inputs (trainInit c gs).1 c').2 h
    · exact absurd h (fun hh => trainFinish_no_saveConfig _ c' hh)

/-- Witness for C9: on a concrete empty-input run from `cfg1`, the
persisted config recorded the configured maximum patience. -/
theorem train_patience_never_persisted_witness :
    (trainInit cfg1 0).1.patience = cfg1.patience ∧
    (trainRun cfg1 0 []).1.config.patience = cfg1.patience ∧
    cfg1.patience = cfg1.patience := by
  refine ⟨?_, ?_, ?_⟩
  · exact (train_patience_never_persisted cfg1 0 [] cfg1).1
  · exact (train_patience_never_persisted cfg1 0 [] cfg1).2.1
  · exact (train_patience_never_persisted cfg1 0 [] cfg1).2.2
      (by simp [trainRun, trainInit, trainLoop, trainFinish])

/-- C10: at the start of `train` (fresh or resumed) the training
iterator is initialized to skip exactly `batch_size * epoch_step`
elements, and that is the only iterator initialization before the loop;
after an epoch rollover the skip count used is exactly 0. -/
theorem train_iterator_skip_count (c : RunConfig) (gs : Int) (s : TrainState)
    (k : Int) :
    Act.initIterator (c.batch_size * c.epoch_step) ∈ (trainInit c gs).2 ∧
    (Act.initIterator k ∈ (trainInit c gs).2 → k = c.batch_size * c.epoch_step) ∧
    Act.initIterator 0 ∈ (trainIteration s IterInput.outOfRange).trace ∧
    (Act.initIterator k ∈ (trainIteration s IterInput.outOfRange).trace → k = 0) := by
  refine ⟨?_, ?_, ?_, ?_⟩
  · simp [trainInit]
  · intro h
    simp [trainInit] at h
    exact h
  · simp [trainIteration]
  · intro h
    simp [trainIteration] at h
    exact h

/-- Witness for C10: with `cfg1` (whose `epoch_step` is 0) the initial
skip count is `32 * 0`, and the rollover from `st1` re-initializes with
skip count 0. -/
theorem train_iterator_skip_count_witness :
    Act.initIterator (cfg1.batch_size * cfg1.epoch_step) ∈ (trainInit cfg1 0).2 ∧
    (0 : Int) = cfg1.batch_size * cfg1.epoch_step ∧
    Act.initIterator 0 ∈ (trainIteration st1 IterInput.outOfRange).trace ∧
    (0 : Int) = 0 := by
  refine ⟨?_, ?_, ?_, ?_⟩
  · exact (train_iterator_skip_count cfg1 0 st1 0).1
  · exact (train_iterator_skip_count cfg1 0 st1 0).2.1 (by simp [trainInit, cfg1])
  · exact (train_iterator_skip_count cfg1 0 st1 0).2.2.1
  · exact (train_iterator_skip_count cfg1 0 st1 0).2.2.2 (by simp [trainIteration])
